import Mathlib

/-!
Verification of the NWACus/expo-slack-webhook repository.

The Go sources are shallowly embedded: pure functions become Lean functions,
Go early-return loops become structural recursions, fallible operations
return Except or Option, and the Go panic of an out-of-range string slice is
modelled as Option.none.  External collaborators (the Expo GraphQL client
calls, RFC3339 timestamp parsing from the Go standard library, HMAC-SHA1
from the Go standard library, JSON unmarshalling) are passed in as explicit
function parameters, so every theorem quantifies over their behaviour.
Timestamps are modelled as Int nanoseconds since an epoch, matching the Go
time.Time instant ordering, and time.Duration as Int nanoseconds.
-/

namespace Webhook

/-- ASCII lowercasing of one character, the case folding that Go
strings.EqualFold performs on the ASCII platform names this repository
compares. -/
def lowerChar (c : Char) : Char :=
  if 65 ≤ c.toNat ∧ c.toNat ≤ 90 then Char.ofNat (c.toNat + 32) else c

/-- ASCII lowercasing of a string, character by character. -/
def lowerStr (s : String) : String :=
  String.mk (s.data.map lowerChar)

/-- Models Go strings.EqualFold for the ASCII strings in play: equality up to
ASCII case. -/
def equalFold (a b : String) : Bool :=
  lowerStr a == lowerStr b

/-- One list leads another: the first argument is an initial segment of the
second. -/
def listLeads : List Char → List Char → Bool
  | [], _ => true
  | _ :: _, [] => false
  | p :: ps, c :: cs => p == c && listLeads ps cs

/-- Models Go strings.HasPrefix: s starts with pre. -/
def strLeads (s pre : String) : Bool :=
  listLeads pre.data s.data

/-- First n characters of a string, via the character list. -/
def takeStr (n : Nat) (s : String) : String :=
  String.mk (s.data.take n)

namespace Expo

/-- expo/types.go: type Platform string. -/
abbrev Platform := String

/-- expo/types.go: PlatformAndroid. -/
def PlatformAndroid : Platform := "android"

/-- expo/types.go: PlatformIOS. -/
def PlatformIOS : Platform := "ios"

/-- expo/types.go: (p Platform) Equal(other) via strings.EqualFold. -/
def platformEqual (p other : Platform) : Bool :=
  equalFold p other

/-- expo/types.go: type Status string. -/
abbrev Status := String

/-- expo/types.go: StatusFinished. -/
def StatusFinished : Status := "finished"

/-- expo/types.go: StatusCancelled. -/
def StatusCancelled : Status := "cancelled"

/-- expo/types.go: StatusErrored. -/
def StatusErrored : Status := "errored"

/-- expo/types.go: type Error, message plus error code. -/
structure Error where
  message : String
  errorCode : String
deriving DecidableEq

/-- expo/types.go: (e Error) Failed, true when either field is nonempty. -/
def Error.Failed (e : Error) : Bool :=
  e.errorCode != "" || e.message != ""

/-- expo/types.go: the (e Error) Error method, code colon message. -/
def errorText (e : Error) : String :=
  e.errorCode ++ ": " ++ e.message

/-- expo/types.go: BuildVersionMetadata. -/
structure BuildVersionMetadata where
  channel : String
  appVersion : String
  appBuildVersion : String
  gitCommitHash : String
deriving DecidableEq

/-- expo/types.go: Build, with the inlined BuildVersionMetadata embedding
represented as the field bvm. -/
structure Build where
  id : String
  status : Status
  platform : Platform
  error : Error
  createdAt : String
  bvm : BuildVersionMetadata
deriving DecidableEq

/-- expo/types.go: BranchFragment, the branch reference inside an Update. -/
structure BranchFragment where
  id : String
  name : String
deriving DecidableEq

/-- expo/types.go: Update. -/
structure Update where
  id : String
  group : String
  platform : Platform
  gitCommitHash : String
  branch : BranchFragment
  createdAt : String
deriving DecidableEq

/-- expo/types.go: UpdateBranch, a named branch with its grouped updates. -/
structure UpdateBranch where
  id : String
  name : String
  updateGroups : List (List Update)
deriving DecidableEq

/-- expo/types.go: UpdateChannel. -/
structure UpdateChannel where
  id : String
  name : String
  updateBranches : List UpdateBranch
deriving DecidableEq

/-- expo/submissions.go PlatformEmoji: Go switch on the exact string. -/
def PlatformEmoji (platform : Platform) : String :=
  if platform = PlatformAndroid then ":android:"
  else if platform = PlatformIOS then ":apple_logo:"
  else ":grey_question:"

/-- expo/submissions.go PlatformDisplay. -/
def PlatformDisplay (platform : Platform) : String :=
  if platform = PlatformAndroid then "Android"
  else if platform = PlatformIOS then "iOS"
  else "Unknown platform "

/-- expo/submissions.go StatusEmoji. -/
def StatusEmoji (status : Status) : String :=
  if status = StatusFinished then ":large_green_circle:"
  else if status = StatusCancelled then ":large_yellow_circle:"
  else if status = StatusErrored then ":red_circle:"
  else ":black_circle:"

/-- expo/submissions.go StatusDisplay. -/
def StatusDisplay (status : Status) : String :=
  if status = StatusFinished then "succeeded"
  else if status = StatusCancelled then "cancelled"
  else if status = StatusErrored then "errored"
  else "in an unknown state"

/-- Go string slicing s[0:7]: yields the first seven bytes, and panics when
the string is shorter than seven bytes.  The panic is modelled as none.  The
commit hashes being sliced are ASCII hex, for which the byte count and the
character count agree, so the content is modelled with a character take. -/
def goSlice7 (s : String) : Option String :=
  if 7 ≤ s.utf8ByteSize then some (takeStr 7 s) else none

/-- expo/submissions.go FormatTitle. -/
def FormatTitle (emoji name : String) (platform : Platform) (status : Status) : String :=
  emoji ++ " " ++ PlatformEmoji platform ++ " " ++ StatusEmoji status ++ " | "
    ++ PlatformDisplay platform ++ " " ++ name ++ " " ++ StatusDisplay status ++ "."

/-- expo/submissions.go FormatBuildVersion: renders app version, build
version, shortened commit hash and channel.  The Go code slices
GitCommitHash with [0:7], which panics on a short hash; the panic is
modelled as none. -/
def FormatBuildVersion (b : BuildVersionMetadata) : Option String :=
  (goSlice7 b.gitCommitHash).map (fun short =>
    b.appVersion ++ " (" ++ b.appBuildVersion ++ ") [<https://github.com/NWACus/avy/commit/"
      ++ b.gitCommitHash ++ "|" ++ short
      ++ ">] @<https://expo.dev/accounts/nwac/projects/avalanche-forecast/channels/"
      ++ b.channel ++ "|" ++ b.channel ++ ">")

end Expo

namespace GoFloat

/-!
Exact model of the IEEE 754 binary64 arithmetic that the Go code performs in
formatDuration (the float64 conversions and divisions in
time.Duration.Seconds, Minutes and Hours and in the day, month and year
quotients).  Values are kept as exact integer fractions; every float64
operation computes the exact rational result and then rounds it to the
nearest representable binary64 value, ties to even.  All values arising in
formatDuration are normal and far from overflow and underflow, so neither
subnormals nor infinities need representing; the fuel bound on the exponent
search covers the whole binary64 exponent range. -/

/-- Powers of two as integers. -/
def pow2 : Nat → Int
  | 0 => 1
  | n + 1 => 2 * pow2 n

/-- An exact fraction num over den with den kept positive by construction. -/
structure Fq where
  num : Int
  den : Int
deriving DecidableEq

/-- Exact integer embedding. -/
def Fq.ofInt (n : Int) : Fq := ⟨n, 1⟩

/-- Exact sum of two fractions. -/
def Fq.addF (a b : Fq) : Fq :=
  ⟨a.num * b.den + b.num * a.den, a.den * b.den⟩

/-- Exact quotient of two fractions, the sign moved into the numerator. -/
def Fq.divF (a b : Fq) : Fq :=
  if b.num < 0 then ⟨-(a.num * b.den), a.den * (-b.num)⟩
  else ⟨a.num * b.den, a.den * b.num⟩

/-- The fraction num over den scaled by two to the power t, as a pair of
numerator and denominator. -/
def scalePair (num den : Int) (t : Int) : Int × Int :=
  if 0 ≤ t then (num * pow2 t.toNat, den) else (num, den * pow2 (-t).toNat)

/-- For a positive fraction, finds the shift t that brings it into the
binary64 mantissa window: two to the 52 at most, strictly below two to
the 53.  Fuel-bounded search; fuel 1200 covers every binary64 exponent. -/
def findShift (fuel : Nat) (num den : Int) (t : Int) : Int :=
  match fuel with
  | 0 => t
  | f + 1 =>
    let p := scalePair num den t
    if p.1 < pow2 52 * p.2 then findShift f num den (t + 1)
    else if pow2 53 * p.2 ≤ p.1 then findShift f num den (t - 1)
    else t

/-- Nearest integer to the positive fraction n over d, ties to even. -/
def roundMantissa (n d : Int) : Int :=
  let m := n.fdiv d
  let r := n - m * d
  if 2 * r < d then m
  else if d < 2 * r then m + 1
  else if m % 2 = 0 then m else m + 1

/-- Rounds a positive exact fraction to the nearest binary64 value, ties to
even. -/
def roundPos (num den : Int) : Fq :=
  let t := findShift 1200 num den 0
  let p := scalePair num den t
  let m := roundMantissa p.1 p.2
  if 0 ≤ t then ⟨m, pow2 t.toNat⟩ else ⟨m * pow2 (-t).toNat, 1⟩

/-- Rounds an exact fraction to the nearest binary64 value, ties to even. -/
def roundF (q : Fq) : Fq :=
  if q.num = 0 then ⟨0, 1⟩
  else if q.num < 0 then
    let r := roundPos (-q.num) q.den
    ⟨-r.num, r.den⟩
  else roundPos q.num q.den

/-- Binary64 addition: exact sum, then one rounding. -/
def fAdd (a b : Fq) : Fq := roundF (Fq.addF a b)

/-- Binary64 division: exact quotient, then one rounding. -/
def fDiv (a b : Fq) : Fq := roundF (Fq.divF a b)

/-- The Go conversion float64(n) of an integer. -/
def fOfInt (n : Int) : Fq := roundF (Fq.ofInt n)

/-- The Go conversion int(x) of a float64: truncation toward zero. -/
def truncF (q : Fq) : Int :=
  if q.num < 0 then -((-q.num).fdiv q.den) else q.num.fdiv q.den

end GoFloat

namespace Dur

open GoFloat

/-- Go time.Duration.Seconds: float64 of the whole seconds plus the float64
of the nanosecond remainder divided by the float constant 1e9.  Go integer
division and remainder truncate toward zero. -/
def durSeconds (d : Int) : Fq :=
  fAdd (fOfInt (d.tdiv 1000000000)) (fDiv (fOfInt (d.tmod 1000000000)) (fOfInt 1000000000))

/-- Go time.Duration.Minutes. -/
def durMinutes (d : Int) : Fq :=
  fAdd (fOfInt (d.tdiv 60000000000)) (fDiv (fOfInt (d.tmod 60000000000)) (fOfInt 60000000000))

/-- Go time.Duration.Hours. -/
def durHours (d : Int) : Fq :=
  fAdd (fOfInt (d.tdiv 3600000000000)) (fDiv (fOfInt (d.tmod 3600000000000)) (fOfInt 3600000000000))

/-- The formatDuration function defined, identically, in both the api/update
and the api/build package: picks the unit by duration thresholds and prints
the Go int conversion of the float64 quantity in that unit.  The argument is
the duration in nanoseconds. -/
def formatDuration (d : Int) : String :=
  if d < 60000000000 then toString (truncF (durSeconds d)) ++ " seconds"
  else if d < 3600000000000 then toString (truncF (durMinutes d)) ++ " minutes"
  else if d < 86400000000000 then toString (truncF (durHours d)) ++ " hours"
  else if d < 2592000000000000 then
    toString (truncF (fDiv (durHours d) (fOfInt 24))) ++ " days"
  else if d < 31536000000000000 then
    toString (truncF (fDiv (durHours d) (fOfInt 720))) ++ " months"
  else toString (truncF (fDiv (durHours d) (fOfInt 8760))) ++ " years"

end Dur

/-- An inbound HTTP request as the handlers consume it: the method, the
outcome of reading the body (io.ReadAll can fail), and the header lookup
function (Go Header.Get returns the empty string for an absent header). -/
structure Request where
  method : String
  bodyResult : Except String String
  headers : String → String

namespace UpdatePkg

/-- api/update: the Update webhook payload entry. -/
structure Update where
  id : String
  appId : String
  group : String
  createdAt : String
  branch : String
  platform : Expo.Platform
  gitCommitHash : String
deriving DecidableEq

/-- The inner loop of api/update previousUpdateFor over the members of one
update group: skip a member of another platform, fail on an unparseable
timestamp of a matching member, skip a member strictly after the reference
time, return the first member that survives.  The parse parameter models Go
time.Parse with the RFC3339 layout, none standing for a parse error. -/
def scanGroup (parse : String → Option Int) (platform : Expo.Platform) (createdAt : Int) :
    List Expo.Update → Except String (Option Expo.Update)
  | [] => Except.ok none
  | u :: rest =>
    if !(Expo.platformEqual u.platform platform) then scanGroup parse platform createdAt rest
    else
      match parse u.createdAt with
      | none => Except.error ("failed to parse createdAt for update " ++ u.id)
      | some t =>
        if createdAt < t then scanGroup parse platform createdAt rest
        else Except.ok (some u)

/-- api/update previousUpdateFor: the doubly nested index loop over the
groups and their members, with the early returns, as a recursion that scans
group after group. -/
def previousUpdateFor (parse : String → Option Int) (platform : Expo.Platform) (createdAt : Int) :
    List (List Expo.Update) → Except String (Option Expo.Update)
  | [] => Except.ok none
  | g :: gs =>
    match scanGroup parse platform createdAt g with
    | Except.error e => Except.error e
    | Except.ok (some u) => Except.ok (some u)
    | Except.ok none => previousUpdateFor parse platform createdAt gs

/-- api/update fetchPreviousUpdate: parse the createdAt of the incoming
update, fetch ten update groups of its branch through the client (modelled
as the fetchUpdates parameter taking app id, branch name, limit and offset),
then scan them. -/
def fetchPreviousUpdate (parse : String → Option Int)
    (fetchUpdates : String → String → Nat → Nat → Except String (List (List Expo.Update)))
    (u : Update) : Except String (Option Expo.Update) :=
  match parse u.createdAt with
  | none => Except.error ("failed to parse createdAt")
  | some createdAt =>
    match fetchUpdates u.appId u.branch 10 0 with
    | Except.error e => Except.error ("failed to fetch updates: " ++ e)
    | Except.ok updates => previousUpdateFor parse u.platform createdAt updates

/-- The header text of the api/update blocksFor message. -/
def updateHeader (u : Update) : String :=
  ":arrows_counterclockwise:" ++ Expo.PlatformEmoji u.platform
    ++ Expo.StatusEmoji Expo.StatusFinished ++ "| " ++ Expo.PlatformDisplay u.platform
    ++ " OTA update " ++ Expo.StatusDisplay Expo.StatusFinished ++ "."

/-- The trailing details text of the api/update blocksFor message. -/
def seeUpdateDetails (id : String) : String :=
  "See update details <https://expo.dev/accounts/nwac/projects/avalanche-forecast/updates/"
    ++ id ++ "|here>."

/-- The previous-update comparison text of the api/update blocksFor
message. -/
def prevUpdateText (updId prevHash short dur newHash : String) : String :=
  "The <https://expo.dev/accounts/nwac/projects/avalanche-forecast/updates/" ++ updId
    ++ "|previous update>, for commit <https://github.com/NWACus/avy/commit/" ++ prevHash
    ++ "|" ++ short ++ ">, was published " ++ dur
    ++ " ago. See the changelog on <https://github.com/NWACus/avy/compare/" ++ prevHash
    ++ "..." ++ newHash ++ "|GitHub>"

/-- api/update blocksFor, the block texts of the chat message.  The outer
Option models the Go panic of slicing a commit hash shorter than seven
bytes; the Except models the returned error on an unparseable previous
timestamp, checked before the slice.  The now parameter is the current
instant that time.Since reads. -/
def blocksFor (parse : String → Option Int) (now : Int) (u : Update)
    (previous : Option Expo.Update) : Option (Except String (List String)) :=
  match previous with
  | none => some (Except.ok [updateHeader u, seeUpdateDetails u.id])
  | some prev =>
    match parse prev.createdAt with
    | none => some (Except.error ("failed to parse createdAt for update " ++ u.id))
    | some t =>
      match Expo.goSlice7 prev.gitCommitHash with
      | none => none
      | some short =>
        some (Except.ok [updateHeader u,
          prevUpdateText u.id prev.gitCommitHash short (Dur.formatDuration (now - t)) u.gitCommitHash,
          seeUpdateDetails u.id])

/-- The externally visible effects of api/update handlePayload: an upstream
fetch of the update groups of a branch, or a chat post of a block list. -/
inductive Action
  | fetchUpdates (appId branch : String)
  | post (blocks : List String)
deriving DecidableEq

/-- api/update handlePayload as the ordered list of its external effects.
Each payload entry is skipped when previews are disallowed and its branch
starts with the preview marker; otherwise its previous update is looked up
(the upstream fetch happens only when the createdAt of the entry parses,
and a failed lookup degrades to no previous update), its blocks are built,
and the message is posted.  A blocksFor error returns from the whole loop;
the blocksFor panic likewise ends processing.  The allowPreviews parameter
models the presence of the ALLOW_PREVIEW environment variable. -/
def handlePayload (parse : String → Option Int) (now : Int)
    (fetchUpdates : String → String → Nat → Nat → Except String (List (List Expo.Update)))
    (allowPreviews : Bool) : List Update → List Action
  | [] => []
  | u :: rest =>
    if !allowPreviews && strLeads u.branch ("xxx") then
      handlePayload parse now fetchUpdates allowPreviews rest
    else
      let lookup : List Action :=
        match parse u.createdAt with
        | none => []
        | some _ => [Action.fetchUpdates u.appId u.branch]
      let prev : Option Expo.Update :=
        match fetchPreviousUpdate parse fetchUpdates u with
        | Except.ok p => p
        | Except.error _ => none
      match blocksFor parse now u prev with
      | none => lookup
      | some (Except.error _) => lookup
      | some (Except.ok blocks) =>
        lookup ++ Action.post blocks :: handlePayload parse now fetchUpdates allowPreviews rest

/-- api/update Handle: the HTTP status code the handler writes, paired with
the payload it then hands, synchronously, to handlePayload (none when
enrichment is never invoked).  The hmacHex parameter models the Go standard
library lowercase hex HMAC-SHA1 digest of a body under the shared secret;
the parsePayload parameter models json.Unmarshal into a list of updates.
The update route reads the signature header named signature. -/
def Handle (hmacHex : String → String → String) (secret : String)
    (parsePayload : String → Option (List Update)) (r : Request) :
    Nat × Option (List Update) :=
  if r.method != "POST" then (405, none)
  else
    match r.bodyResult with
    | Except.error _ => (500, none)
    | Except.ok body =>
      if "sha1=" ++ hmacHex secret body != r.headers ("signature") then (401, none)
      else
        match parsePayload body with
        | none => (400, none)
        | some payload => (200, some payload)

end UpdatePkg

namespace BuildPkg

/-- api/build: the Metadata of the build webhook payload, the app name plus
the inlined BuildVersionMetadata embedding, represented as the field bvm. -/
structure Metadata where
  appName : String
  bvm : Expo.BuildVersionMetadata
deriving DecidableEq

/-- api/build: the build WebhookPayload. -/
structure WebhookPayload where
  id : String
  appId : String
  details : String
  platform : Expo.Platform
  status : Expo.Status
  metadata : Metadata
  error : Expo.Error
  createdAt : String
deriving DecidableEq

/-- The inner loop of api/build previousUpdateFor over the members of one
update group, textually identical in the source to its api/update
counterpart. -/
def scanGroup (parse : String → Option Int) (platform : Expo.Platform) (createdAt : Int) :
    List Expo.Update → Except String (Option Expo.Update)
  | [] => Except.ok none
  | u :: rest =>
    if !(Expo.platformEqual u.platform platform) then scanGroup parse platform createdAt rest
    else
      match parse u.createdAt with
      | none => Except.error ("failed to parse createdAt for update " ++ u.id)
      | some t =>
        if createdAt < t then scanGroup parse platform createdAt rest
        else Except.ok (some u)

/-- api/build previousUpdateFor, textually identical in the source to the
api/update function of the same name. -/
def previousUpdateFor (parse : String → Option Int) (platform : Expo.Platform) (createdAt : Int) :
    List (List Expo.Update) → Except String (Option Expo.Update)
  | [] => Except.ok none
  | g :: gs =>
    match scanGroup parse platform createdAt g with
    | Except.error e => Except.error e
    | Except.ok (some u) => Except.ok (some u)
    | Except.ok none => previousUpdateFor parse platform createdAt gs

/-- The innermost loop of api/build updateBranchFor, over the updates of one
group: the branch name carried by the first update of the wanted platform. -/
def groupBranchScan (platform : Expo.Platform) : List Expo.Update → Option String
  | [] => none
  | u :: rest =>
    if Expo.platformEqual u.platform platform then some u.branch.name
    else groupBranchScan platform rest

/-- The middle loop of api/build updateBranchFor, over the groups of one
branch. -/
def groupsBranchScan (platform : Expo.Platform) : List (List Expo.Update) → Option String
  | [] => none
  | g :: gs =>
    match groupBranchScan platform g with
    | some n => some n
    | none => groupsBranchScan platform gs

/-- The outer loop of api/build updateBranchFor, over the branches of the
channel. -/
def branchesScan (platform : Expo.Platform) : List Expo.UpdateBranch → Option String
  | [] => none
  | b :: bs =>
    match groupsBranchScan platform b.updateGroups with
    | some n => some n
    | none => branchesScan platform bs

/-- api/build updateBranchFor: the empty string both for a nil channel and
when no update of the platform is found, exactly as the Go sentinel. -/
def updateBranchFor (platform : Expo.Platform) : Option Expo.UpdateChannel → String
  | none => ""
  | some channel => (branchesScan platform channel.updateBranches).getD ""

/-- api/build fetchPreviousUpdate: parse the createdAt of the new build,
fetch the update channel named by the build channel (the fetchChannel
parameter models the client call taking app id and channel name), resolve
the update branch, fail on the empty sentinel, fetch ten update groups of
that branch and scan them. -/
def fetchPreviousUpdate (parse : String → Option Int)
    (fetchChannel : String → String → Except String Expo.UpdateChannel)
    (fetchUpdates : String → String → Nat → Nat → Except String (List (List Expo.Update)))
    (w : WebhookPayload) : Except String (Option Expo.Update) :=
  match parse w.createdAt with
  | none => Except.error ("failed to parse createdAt")
  | some createdAt =>
    match fetchChannel w.appId w.metadata.bvm.channel with
    | Except.error e => Except.error ("failed to fetch update channel: " ++ e)
    | Except.ok channel =>
      let updateBranch := updateBranchFor w.platform (some channel)
      if updateBranch == "" then
        Except.error ("failed to find update branch for platform " ++ w.platform)
      else
        match fetchUpdates w.appId updateBranch 10 0 with
        | Except.error e => Except.error ("failed to fetch updates: " ++ e)
        | Except.ok updates => previousUpdateFor parse w.platform createdAt updates

/-- The loop of api/build fetchPreviousBuild over the fetched page: the
element after the first one whose id equals the id of the new build,
provided that match is not the last element; the Go condition is
builds at i has the wanted id and i is below the last index. -/
def previousBuildLoop (wId : String) : List Expo.Build → Option Expo.Build
  | b :: next :: rest =>
    if b.id == wId then some next else previousBuildLoop wId (next :: rest)
  | _ => none

/-- api/build fetchPreviousBuild, with the page fetch modelled by its
outcome: a fetch error is wrapped and propagated, otherwise the page is
scanned and no match is not an error. -/
def fetchPreviousBuild (builds : Except String (List Expo.Build)) (wId : String) :
    Except String (Option Expo.Build) :=
  match builds with
  | Except.error e => Except.error ("failed to fetch build list: " ++ e)
  | Except.ok bs => Except.ok (previousBuildLoop wId bs)

/-- The header text of the api/build blocksFor message, given the already
rendered version text. -/
def buildHeader (w : WebhookPayload) (version : String) : String :=
  ":hammer_and_wrench:" ++ Expo.PlatformEmoji w.platform ++ Expo.StatusEmoji w.status
    ++ "| " ++ Expo.PlatformDisplay w.platform ++ " build of " ++ w.metadata.appName
    ++ " " ++ version ++ " " ++ Expo.StatusDisplay w.status ++ "."

/-- The previous-build comparison text of the api/build blocksFor message. -/
def prevBuildText (buildId version dur prevHash newHash : String) : String :=
  "The <https://expo.dev/accounts/nwac/projects/avalanche-forecast/builds/" ++ buildId
    ++ "|previous build>, " ++ version ++ ", was published " ++ dur
    ++ " ago. See the changelog on <https://github.com/NWACus/avy/compare/" ++ prevHash
    ++ "..." ++ newHash ++ "|GitHub>"

/-- The trailing text of the api/build blocksFor message: the error detail
when the build failed, then the details link. -/
def finalBuildBlock (w : WebhookPayload) : String :=
  (if w.error.Failed then "Error " ++ Expo.errorText w.error ++ "\n" else "")
    ++ "See build details <" ++ w.details ++ "|here>."

/-- The previous-update section and trailing section of api/build blocksFor,
appended to the blocks accumulated so far.  The previous-update section
parses the update timestamp (an error return), then slices its commit hash
(a panic, modelled as none). -/
def blocksForTail (parse : String → Option Int) (now : Int) (w : WebhookPayload)
    (update : Option Expo.Update) (acc : List String) : Option (Except String (List String)) :=
  match update with
  | none => some (Except.ok (acc ++ [finalBuildBlock w]))
  | some u =>
    match parse u.createdAt with
    | none => some (Except.error ("failed to parse createdAt for update " ++ u.id))
    | some t =>
      match Expo.goSlice7 u.gitCommitHash with
      | none => none
      | some short =>
        some (Except.ok (acc ++
          [UpdatePkg.prevUpdateText u.id u.gitCommitHash short (Dur.formatDuration (now - t))
            w.metadata.bvm.gitCommitHash,
          finalBuildBlock w]))

/-- api/build blocksFor: header (whose FormatBuildVersion call can panic on
a short commit hash of the payload metadata), optional previous-build
section (timestamp parse error, then a FormatBuildVersion panic), optional
previous-update section, trailing section. -/
def blocksFor (parse : String → Option Int) (now : Int) (w : WebhookPayload)
    (build : Option Expo.Build) (update : Option Expo.Update) :
    Option (Except String (List String)) :=
  match Expo.FormatBuildVersion w.metadata.bvm with
  | none => none
  | some headerVersion =>
    match build with
    | none => blocksForTail parse now w update [buildHeader w headerVersion]
    | some b =>
      match parse b.createdAt with
      | none => some (Except.error ("failed to parse createdAt for build " ++ b.id))
      | some tb =>
        match Expo.FormatBuildVersion b.bvm with
        | none => none
        | some bv =>
          blocksForTail parse now w update
            [buildHeader w headerVersion,
             prevBuildText b.id bv (Dur.formatDuration (now - tb)) b.bvm.gitCommitHash
               w.metadata.bvm.gitCommitHash]

/-- api/build Handle: the status code written, paired with the payload then
handed synchronously to the enrichment.  The build route reads the header
named expo-signature. -/
def Handle (hmacHex : String → String → String) (secret : String)
    (parsePayload : String → Option WebhookPayload) (r : Request) :
    Nat × Option WebhookPayload :=
  if r.method != "POST" then (405, none)
  else
    match r.bodyResult with
    | Except.error _ => (500, none)
    | Except.ok body =>
      if "sha1=" ++ hmacHex secret body != r.headers ("expo-signature") then (401, none)
      else
        match parsePayload body with
        | none => (400, none)
        | some payload => (200, some payload)

end BuildPkg

namespace SubmitPkg

/-- api/submit: the submission Info carrying the error. -/
structure Info where
  error : Expo.Error
deriving DecidableEq

/-- api/submit: the submission WebhookPayload. -/
structure WebhookPayload where
  id : String
  details : String
  platform : Expo.Platform
  status : Expo.Status
  info : Info
deriving DecidableEq

/-- api/submit Handle: the status code written, paired with the payload then
handed synchronously to the enrichment.  The submit route reads the header
named expo-signature. -/
def Handle (hmacHex : String → String → String) (secret : String)
    (parsePayload : String → Option WebhookPayload) (r : Request) :
    Nat × Option WebhookPayload :=
  if r.method != "POST" then (405, none)
  else
    match r.bodyResult with
    | Except.error _ => (500, none)
    | Except.ok body =>
      if "sha1=" ++ hmacHex secret body != r.headers ("expo-signature") then (401, none)
      else
        match parsePayload body with
        | none => (400, none)
        | some payload => (200, some payload)

end SubmitPkg

/-!
Specification-side definitions, used only to state the theorems, and the
concrete instances used by witnesses and counterexamples.
-/

/-- A member at which the scan of previousUpdateFor stops: its platform
matches the wanted one and it is not a member that parses to a timestamp
strictly after the reference time.  The scan stops there either with that
member or, when its timestamp does not parse, with an error. -/
def stopsSpec (parse : String → Option Int) (platform : Expo.Platform) (createdAt : Int)
    (u : Expo.Update) : Bool :=
  Expo.platformEqual u.platform platform &&
    !(match parse u.createdAt with
      | some t => decide (createdAt < t)
      | none => false)

/-- All updates of a channel in scan order: branches in order, the groups of
each branch in order, the members of each group in order. -/
def flattenChannel (ch : Expo.UpdateChannel) : List Expo.Update :=
  ch.updateBranches.flatMap (fun b => b.updateGroups.flatten)

/-- A parse oracle for the C3 instances: only the reference timestamp
parses. -/
def parse3 : String → Option Int :=
  fun s => if s == "2024-01-02T00:00:00Z" then some 0 else none

/-- An update whose platform matches but whose branch reference carries an
empty name. -/
def u3 : Expo.Update :=
  ⟨"up1", "g1", "ios", "0123456789", ⟨"bid", ""⟩, "2024-01-01T00:00:00Z"⟩

/-- A channel whose only update is u3. -/
def ch3 : Expo.UpdateChannel :=
  ⟨"ch1", "production", [⟨"br1", "main", [[u3]]⟩]⟩

/-- A channel fetch oracle returning ch3. -/
def fc3 : String → String → Except String Expo.UpdateChannel :=
  fun _ _ => Except.ok ch3

/-- An updates fetch oracle succeeding with an empty page on every branch
name, the empty one included. -/
def fu3 : String → String → Nat → Nat → Except String (List (List Expo.Update)) :=
  fun _ _ _ _ => Except.ok []

/-- A build webhook payload for the C3 instances. -/
def w3 : BuildPkg.WebhookPayload :=
  ⟨"b1", "app", "url", "ios", "finished",
   ⟨"avy", ⟨"production", "1.0", "42", "0123456789"⟩⟩, ⟨"", ""⟩, "2024-01-02T00:00:00Z"⟩

/-- A parse oracle mapping every timestamp to the instant zero. -/
def parse05 : String → Option Int := fun _ => some 0

/-- An update payload entry for the C5 witness. -/
def u5 : UpdatePkg.Update :=
  ⟨"u1", "app", "g", "t", "main", "ios", "0123456789"⟩

/-- A previous update with a commit hash of three bytes. -/
def prevShort5 : Expo.Update :=
  ⟨"p1", "g", "ios", "abc", ⟨"b", "main"⟩, "t"⟩

/-- A previous update with a commit hash of ten bytes. -/
def prevLong5 : Expo.Update :=
  ⟨"p2", "g", "ios", "0123456789", ⟨"b", "main"⟩, "t"⟩

/-- A build webhook payload whose own commit hash is long enough. -/
def w5 : BuildPkg.WebhookPayload :=
  ⟨"b1", "app", "url", "ios", "finished",
   ⟨"avy", ⟨"prod", "1.0", "42", "0123456789"⟩⟩, ⟨"", ""⟩, "t"⟩

/-- A payload entry on a preview branch for the C10 witness. -/
def u10 : UpdatePkg.Update :=
  ⟨"u1", "app", "g", "t", "xxx-preview", "ios", "hash"⟩

/-- A parse oracle that always fails, for the C10 witness. -/
def parse10 : String → Option Int := fun _ => none

/-- An updates fetch oracle with an empty page, for the C10 witness. -/
def fu10 : String → String → Nat → Nat → Except String (List (List Expo.Update)) :=
  fun _ _ _ _ => Except.ok []

/-- A payload entry for the C9 instance. -/
def u9 : UpdatePkg.Update :=
  ⟨"u1", "app", "g", "2024-01-01T00:00:00Z", "main", "ios", "0123456789abcdef"⟩

/-- An HMAC oracle for the C9 instance. -/
def hmac9 : String → String → String := fun _ _ => "d"

/-- A payload parse oracle for the C9 instance. -/
def parse9 : String → Option (List UpdatePkg.Update) :=
  fun b => if b == "body" then some [u9] else none

/-- A valid POST request for the C9 instance: correct method, readable body,
matching signature header. -/
def req9 : Request :=
  ⟨"POST", Except.ok ("body"), fun h => if h == "signature" then "sha1=d" else ""⟩

/-!
Theorems.  Shared helper lemmas come first, then one theorem per claim with
its witness or counterexample.
-/

/-- The result the scan produces when it stops at a given member. -/
def stopResult (parse : String → Option Int) (u : Expo.Update) :
    Except String (Option Expo.Update) :=
  match parse u.createdAt with
  | none => Except.error ("failed to parse createdAt for update " ++ u.id)
  | some _ => Except.ok (some u)

theorem scanGroup_eq_find (parse : String → Option Int) (platform : Expo.Platform)
    (createdAt : Int) (g : List Expo.Update) :
    UpdatePkg.scanGroup parse platform createdAt g =
      match g.find? (stopsSpec parse platform createdAt) with
      | none => Except.ok none
      | some u => stopResult parse u := by
  induction g with
  | nil => rfl
  | cons u rest ih =>
    by_cases hpe : Expo.platformEqual u.platform platform
    · cases hp : parse u.createdAt with
      | none =>
        have hs : stopsSpec parse platform createdAt u = true := by
          simp [stopsSpec, hpe, hp]
        simp [UpdatePkg.scanGroup, hpe, hp, List.find?_cons, hs, stopResult]
      | some t =>
        by_cases hlt : createdAt < t
        · have hs : stopsSpec parse platform createdAt u = false := by
            simp [stopsSpec, hp, hlt]
          simp [UpdatePkg.scanGroup, hpe, hp, hlt, List.find?_cons, hs, ih]
        · have hs : stopsSpec parse platform createdAt u = true := by
            simp [stopsSpec, hpe, hp, hlt]
          simp [UpdatePkg.scanGroup, hpe, hp, hlt, List.find?_cons, hs, stopResult]
    · have hs : stopsSpec parse platform createdAt u = false := by
        simp [stopsSpec, hpe]
      simp [UpdatePkg.scanGroup, hpe, List.find?_cons, hs, ih]

/-- C1: the scan-for-previous primitive previousUpdateFor walks the groups
in order and their members in order, which is exactly the flattened member
sequence; it passes over members of another platform and members parsing
strictly after the reference time; at the first member whose platform
matches and which is not parsed-and-after, it stops — with an error when
that member carries an unparseable timestamp, and with that member as the
previous update otherwise, ties with the reference time accepted; when no
member stops the scan, the empty group sequence included, it returns none
without an error. -/
theorem C1_scan_for_previous (parse : String → Option Int) (platform : Expo.Platform)
    (createdAt : Int) (groups : List (List Expo.Update)) :
    UpdatePkg.previousUpdateFor parse platform createdAt groups =
      match groups.flatten.find? (stopsSpec parse platform createdAt) with
      | none => Except.ok none
      | some u => stopResult parse u := by
  induction groups with
  | nil => rfl
  | cons g gs ih =>
    rw [List.flatten_cons, List.find?_append]
    rw [UpdatePkg.previousUpdateFor, scanGroup_eq_find]
    cases hf : g.find? (stopsSpec parse platform createdAt) with
    | none => simpa [Option.or] using ih
    | some u =>
      cases hp : parse u.createdAt <;> simp [Option.or, stopResult, hp]

theorem scanGroup_update_eq_build (parse : String → Option Int) (platform : Expo.Platform)
    (createdAt : Int) (g : List Expo.Update) :
    UpdatePkg.scanGroup parse platform createdAt g =
      BuildPkg.scanGroup parse platform createdAt g := by
  induction g with
  | nil => rfl
  | cons u rest ih =>
    by_cases hpe : Expo.platformEqual u.platform platform
    · cases hp : parse u.createdAt with
      | none => simp [UpdatePkg.scanGroup, BuildPkg.scanGroup, hpe, hp]
      | some t =>
        by_cases hlt : createdAt < t <;>
          simp [UpdatePkg.scanGroup, BuildPkg.scanGroup, hpe, hp, hlt, ih]
    · simp [UpdatePkg.scanGroup, BuildPkg.scanGroup, hpe, ih]

/-- C8: the scan primitive is duplicated, not shared, in the source, but the
two copies are extensionally equal: the previousUpdateFor of the api/update
package and the previousUpdateFor of the api/build package agree on every
platform, reference time and group sequence. -/
theorem C8_shared_scan_primitive (parse : String → Option Int) (platform : Expo.Platform)
    (createdAt : Int) (groups : List (List Expo.Update)) :
    UpdatePkg.previousUpdateFor parse platform createdAt groups =
      BuildPkg.previousUpdateFor parse platform createdAt groups := by
  induction groups with
  | nil => rfl
  | cons g gs ih =>
    rw [UpdatePkg.previousUpdateFor, BuildPkg.previousUpdateFor,
      scanGroup_update_eq_build]
    cases BuildPkg.scanGroup parse platform createdAt g with
    | error e => rfl
    | ok o => cases o <;> simp [ih]

/-- C2: resolve-previous-build on a fetched page returns the element
immediately after the first element whose id equals the id of the new
build: dropping the non-matching front, the head of what remains is the
first match and the element after it is returned; none is returned, without
an error, when the match is the last element or when no element matches. -/
theorem C2_resolve_previous_build (bs : List Expo.Build) (wId : String) :
    BuildPkg.fetchPreviousBuild (Except.ok bs) wId =
      Except.ok (match bs.dropWhile (fun b => b.id != wId) with
        | _ :: next :: _ => some next
        | _ => none) := by
  rw [BuildPkg.fetchPreviousBuild]
  congr 1
  induction bs with
  | nil => rfl
  | cons b rest ih =>
    by_cases hb : b.id = wId
    · cases rest with
      | nil => simp [BuildPkg.previousBuildLoop, List.dropWhile_cons, hb]
      | cons next rest2 => simp [BuildPkg.previousBuildLoop, List.dropWhile_cons, hb]
    · cases rest with
      | nil => simp [BuildPkg.previousBuildLoop, List.dropWhile_cons, hb]
      | cons next rest2 =>
        simpa [BuildPkg.previousBuildLoop, List.dropWhile_cons, hb] using ih

theorem groupBranchScan_eq_find (platform : Expo.Platform) (g : List Expo.Update) :
    BuildPkg.groupBranchScan platform g =
      (g.find? (fun u => Expo.platformEqual u.platform platform)).map
        (fun u => u.branch.name) := by
  induction g with
  | nil => rfl
  | cons u rest ih =>
    by_cases hpe : Expo.platformEqual u.platform platform <;>
      simp [BuildPkg.groupBranchScan, List.find?_cons, hpe, ih]

theorem groupsBranchScan_eq_find (platform : Expo.Platform) (gs : List (List Expo.Update)) :
    BuildPkg.groupsBranchScan platform gs =
      (gs.flatten.find? (fun u => Expo.platformEqual u.platform platform)).map
        (fun u => u.branch.name) := by
  induction gs with
  | nil => rfl
  | cons g rest ih =>
    rw [List.flatten_cons, List.find?_append]
    rw [BuildPkg.groupsBranchScan, groupBranchScan_eq_find]
    cases hf : g.find? (fun u => Expo.platformEqual u.platform platform) <;>
      simp [Option.or, hf, ih]

theorem branchesScan_eq_find (platform : Expo.Platform) (bs : List Expo.UpdateBranch) :
    BuildPkg.branchesScan platform bs =
      ((bs.flatMap (fun b => b.updateGroups.flatten)).find?
        (fun u => Expo.platformEqual u.platform platform)).map (fun u => u.branch.name) := by
  induction bs with
  | nil => rfl
  | cons b rest ih =>
    rw [List.flatMap_cons, List.find?_append]
    rw [BuildPkg.branchesScan, groupsBranchScan_eq_find]
    cases hf : b.updateGroups.flatten.find? (fun u => Expo.platformEqual u.platform platform) <;>
      simp [Option.or, hf, ih]

/-- C3 (amended): resolve-previous-update-for-build first fetches the update
channel named by the channel of the build and scans its branches, their
groups and their members in order for the first update whose platform
matches the build; the branch name is read off that update, and the
resolution fails both when no update matches and when the matched branch
name is the empty string (the Go code signals both through the same empty
sentinel); otherwise the updates of that branch are fetched and
scan-for-previous runs over them with the creation time of the build as the
reference. -/
theorem C3_previous_update_for_build (parse : String → Option Int)
    (fetchChannel : String → String → Except String Expo.UpdateChannel)
    (fetchUpdates : String → String → Nat → Nat → Except String (List (List Expo.Update)))
    (w : BuildPkg.WebhookPayload) (t : Int) (ch : Expo.UpdateChannel)
    (h1 : parse w.createdAt = some t)
    (h2 : fetchChannel w.appId w.metadata.bvm.channel = Except.ok ch) :
    BuildPkg.fetchPreviousUpdate parse fetchChannel fetchUpdates w =
      (match ((flattenChannel ch).find?
          (fun u => Expo.platformEqual u.platform w.platform)).map (fun u => u.branch.name) with
       | none => Except.error ("failed to find update branch for platform " ++ w.platform)
       | some bn =>
         if bn == "" then
           Except.error ("failed to find update branch for platform " ++ w.platform)
         else
           match fetchUpdates w.appId bn 10 0 with
           | Except.error e => Except.error ("failed to fetch updates: " ++ e)
           | Except.ok ups => BuildPkg.previousUpdateFor parse w.platform t ups) := by
  simp only [BuildPkg.fetchPreviousUpdate, h1, h2]
  have hb : BuildPkg.updateBranchFor w.platform (some ch) =
      (((flattenChannel ch).find? (fun u => Expo.platformEqual u.platform w.platform)).map
        (fun u => u.branch.name)).getD "" := by
    rw [BuildPkg.updateBranchFor, branchesScan_eq_find, flattenChannel]
  rw [hb]
  cases hf : (flattenChannel ch).find? (fun u => Expo.platformEqual u.platform w.platform) with
  | none => simp
  | some u => simp

/-- C3 counterexample: the claim says the resolution fails only when no
update of the channel matches the platform of the build, and that otherwise
the branch named by the first matching update is fetched and scanned.  Here
the channel ch3 holds a matching update, u3, whose branch name is the empty
string: the code refuses with the missing-branch error even though fetching
that branch would have succeeded and the scan would have produced a clean
none. -/
theorem C3_counterexample :
    BuildPkg.fetchPreviousUpdate parse3 fc3 fu3 w3 =
        Except.error ("failed to find update branch for platform ios")
      ∧ (flattenChannel ch3).find? (fun u => Expo.platformEqual u.platform w3.platform) = some u3
      ∧ (match fu3 w3.appId u3.branch.name 10 0 with
         | Except.error e => Except.error e
         | Except.ok ups => BuildPkg.previousUpdateFor parse3 w3.platform 0 ups) =
          Except.ok none := by
  refine ⟨rfl, by decide, rfl⟩

/-- C3 witness: the amended theorem applied at the concrete C3 instances,
the two hypotheses discharged by evaluation. -/
theorem C3_previous_update_for_build_witness :
    parse3 w3.createdAt = some 0
      ∧ fc3 w3.appId w3.metadata.bvm.channel = Except.ok ch3
      ∧ BuildPkg.fetchPreviousUpdate parse3 fc3 fu3 w3 =
          (match ((flattenChannel ch3).find?
              (fun u => Expo.platformEqual u.platform w3.platform)).map (fun u => u.branch.name) with
           | none => Except.error ("failed to find update branch for platform " ++ w3.platform)
           | some bn =>
             if bn == "" then
               Except.error ("failed to find update branch for platform " ++ w3.platform)
             else
               match fu3 w3.appId bn 10 0 with
               | Except.error e => Except.error ("failed to fetch updates: " ++ e)
               | Except.ok ups => BuildPkg.previousUpdateFor parse3 w3.platform 0 ups) :=
  ⟨rfl, rfl, C3_previous_update_for_build parse3 fc3 fu3 w3 0 ch3 rfl rfl⟩

/-- C4: each of the three handlers answers 405 when the method is not POST;
otherwise 500 when reading the body fails; otherwise 401 when the signature
header (signature for the update route, expo-signature for the build and
submit routes) differs from sha1= followed by the HMAC digest of the body
under the shared secret; otherwise 400 when the body does not parse as the
payload shape of the route; otherwise 200.  The final conjunct of each block
records that the enrichment payload is handed over exactly in the 200 case;
in the source the 200 header is written before that call is made. -/
theorem C4_endpoint_status_codes (hmacHex : String → String → String) (secret : String)
    (parseU : String → Option (List UpdatePkg.Update))
    (parseB : String → Option BuildPkg.WebhookPayload)
    (parseS : String → Option SubmitPkg.WebhookPayload) (r : Request) :
    (((UpdatePkg.Handle hmacHex secret parseU r).1 = 405 ↔ r.method ≠ "POST")
     ∧ ((UpdatePkg.Handle hmacHex secret parseU r).1 = 500 ↔
         r.method = "POST" ∧ ∃ e, r.bodyResult = Except.error e)
     ∧ ((UpdatePkg.Handle hmacHex secret parseU r).1 = 401 ↔
         r.method = "POST" ∧ ∃ body, r.bodyResult = Except.ok body ∧
           r.headers ("signature") ≠ "sha1=" ++ hmacHex secret body)
     ∧ ((UpdatePkg.Handle hmacHex secret parseU r).1 = 400 ↔
         r.method = "POST" ∧ ∃ body, r.bodyResult = Except.ok body ∧
           r.headers ("signature") = "sha1=" ++ hmacHex secret body ∧ parseU body = none)
     ∧ ((UpdatePkg.Handle hmacHex secret parseU r).1 = 200 ↔
         r.method = "POST" ∧ ∃ body, r.bodyResult = Except.ok body ∧
           r.headers ("signature") = "sha1=" ++ hmacHex secret body ∧ (parseU body).isSome)
     ∧ ((UpdatePkg.Handle hmacHex secret parseU r).2.isSome ↔
         (UpdatePkg.Handle hmacHex secret parseU r).1 = 200))
    ∧ (((BuildPkg.Handle hmacHex secret parseB r).1 = 405 ↔ r.method ≠ "POST")
     ∧ ((BuildPkg.Handle hmacHex secret parseB r).1 = 500 ↔
         r.method = "POST" ∧ ∃ e, r.bodyResult = Except.error e)
     ∧ ((BuildPkg.Handle hmacHex secret parseB r).1 = 401 ↔
         r.method = "POST" ∧ ∃ body, r.bodyResult = Except.ok body ∧
           r.headers ("expo-signature") ≠ "sha1=" ++ hmacHex secret body)
     ∧ ((BuildPkg.Handle hmacHex secret parseB r).1 = 400 ↔
         r.method = "POST" ∧ ∃ body, r.bodyResult = Except.ok body ∧
           r.headers ("expo-signature") = "sha1=" ++ hmacHex secret body ∧ parseB body = none)
     ∧ ((BuildPkg.Handle hmacHex secret parseB r).1 = 200 ↔
         r.method = "POST" ∧ ∃ body, r.bodyResult = Except.ok body ∧
           r.headers ("expo-signature") = "sha1=" ++ hmacHex secret body ∧ (parseB body).isSome)
     ∧ ((BuildPkg.Handle hmacHex secret parseB r).2.isSome ↔
         (BuildPkg.Handle hmacHex secret parseB r).1 = 200))
    ∧ (((SubmitPkg.Handle hmacHex secret parseS r).1 = 405 ↔ r.method ≠ "POST")
     ∧ ((SubmitPkg.Handle hmacHex secret parseS r).1 = 500 ↔
         r.method = "POST" ∧ ∃ e, r.bodyResult = Except.error e)
     ∧ ((SubmitPkg.Handle hmacHex secret parseS r).1 = 401 ↔
         r.method = "POST" ∧ ∃ body, r.bodyResult = Except.ok body ∧
           r.headers ("expo-signature") ≠ "sha1=" ++ hmacHex secret body)
     ∧ ((SubmitPkg.Handle hmacHex secret parseS r).1 = 400 ↔
         r.method = "POST" ∧ ∃ body, r.bodyResult = Except.ok body ∧
           r.headers ("expo-signature") = "sha1=" ++ hmacHex secret body ∧ parseS body = none)
     ∧ ((SubmitPkg.Handle hmacHex secret parseS r).1 = 200 ↔
         r.method = "POST" ∧ ∃ body, r.bodyResult = Except.ok body ∧
           r.headers ("expo-signature") = "sha1=" ++ hmacHex secret body ∧ (parseS body).isSome)
     ∧ ((SubmitPkg.Handle hmacHex secret parseS r).2.isSome ↔
         (SubmitPkg.Handle hmacHex secret parseS r).1 = 200)) := by
  obtain ⟨m, br, hd⟩ := r
  refine ⟨?_, ?_, ?_⟩
  · by_cases hm : m = "POST"
    · subst hm
      cases br with
      | error e => simp [UpdatePkg.Handle]
      | ok body =>
        by_cases hs : hd ("signature") = "sha1=" ++ hmacHex secret body
        · cases hp : parseU body <;> simp [UpdatePkg.Handle, hs, hp]
        · simp [UpdatePkg.Handle, hs, Ne.symm hs, bne_iff_ne]
    · simp [UpdatePkg.Handle, hm]
  · by_cases hm : m = "POST"
    · subst hm
      cases br with
      | error e => simp [BuildPkg.Handle]
      | ok body =>
        by_cases hs : hd ("expo-signature") = "sha1=" ++ hmacHex secret body
        · cases hp : parseB body <;> simp [BuildPkg.Handle, hs, hp]
        · simp [BuildPkg.Handle, hs, Ne.symm hs, bne_iff_ne]
    · simp [BuildPkg.Handle, hm]
  · by_cases hm : m = "POST"
    · subst hm
      cases br with
      | error e => simp [SubmitPkg.Handle]
      | ok body =>
        by_cases hs : hd ("expo-signature") = "sha1=" ++ hmacHex secret body
        · cases hp : parseS body <;> simp [SubmitPkg.Handle, hs, hp]
        · simp [SubmitPkg.Handle, hs, Ne.symm hs, bne_iff_ne]
    · simp [SubmitPkg.Handle, hm]

/-- C4 witness: the 200 clause of the status theorem applied to a concrete
valid request. -/
theorem C4_endpoint_status_codes_witness :
    (UpdatePkg.Handle hmac9 ("secret") parse9 req9).1 = 200 ∧ req9.method = "POST" :=
  ⟨((C4_endpoint_status_codes hmac9 ("secret") parse9 (fun _ => none) (fun _ => none)
      req9).1.2.2.2.2.1).mpr ⟨rfl, "body", rfl, by decide, by decide⟩, rfl⟩

/-- C5: FormatBuildVersion fails, through the Go slice panic modelled as
none, exactly when the commit hash is shorter than seven bytes; the
previous-update comparison of the update blocksFor and of the build
blocksFor panics only on a short previous commit hash (an unparseable
previous timestamp makes it fail with an error instead) and never panics
when the sliced hashes have at least seven bytes. -/
theorem C5_short_commit_hash :
    (∀ b : Expo.BuildVersionMetadata,
      Expo.FormatBuildVersion b = none ↔ b.gitCommitHash.utf8ByteSize < 7)
    ∧ (∀ (parse : String → Option Int) (now : Int) (u : UpdatePkg.Update)
        (prev : Expo.Update),
        (prev.gitCommitHash.utf8ByteSize < 7 →
          UpdatePkg.blocksFor parse now u (some prev) = none ∨
            ∃ e, UpdatePkg.blocksFor parse now u (some prev) = some (Except.error e))
        ∧ (7 ≤ prev.gitCommitHash.utf8ByteSize →
            UpdatePkg.blocksFor parse now u (some prev) ≠ none))
    ∧ (∀ (parse : String → Option Int) (now : Int) (w : BuildPkg.WebhookPayload)
        (prev : Expo.Update),
        7 ≤ w.metadata.bvm.gitCommitHash.utf8ByteSize →
        (prev.gitCommitHash.utf8ByteSize < 7 →
          BuildPkg.blocksFor parse now w none (some prev) = none ∨
            ∃ e, BuildPkg.blocksFor parse now w none (some prev) = some (Except.error e))
        ∧ (7 ≤ prev.gitCommitHash.utf8ByteSize →
            BuildPkg.blocksFor parse now w none (some prev) ≠ none)) := by
  refine ⟨?_, ?_, ?_⟩
  · intro b
    by_cases h7 : 7 ≤ b.gitCommitHash.utf8ByteSize
    · simp only [Expo.FormatBuildVersion, Expo.goSlice7, if_pos h7, Option.map_some]
      constructor
      · intro hc
        exact absurd hc (by simp)
      · intro hc
        omega
    · simp only [Expo.FormatBuildVersion, Expo.goSlice7, if_neg h7, Option.map_none]
      constructor
      · intro _
        omega
      · intro _
        rfl
  · intro parse now u prev
    constructor
    · intro h7
      have hs : Expo.goSlice7 prev.gitCommitHash = none := by
        simp [Expo.goSlice7]; omega
      cases hp : parse prev.createdAt with
      | none =>
        exact Or.inr ⟨"failed to parse createdAt for update " ++ u.id,
          by simp [UpdatePkg.blocksFor, hp]⟩
      | some t => exact Or.inl (by simp [UpdatePkg.blocksFor, hp, hs])
    · intro h7
      have hs : Expo.goSlice7 prev.gitCommitHash = some (takeStr 7 prev.gitCommitHash) := by
        simp [Expo.goSlice7, h7]
      cases hp : parse prev.createdAt <;> simp [UpdatePkg.blocksFor, hp, hs]
  · intro parse now w prev h7w
    have hw : Expo.goSlice7 w.metadata.bvm.gitCommitHash =
        some (takeStr 7 w.metadata.bvm.gitCommitHash) := by
      simp [Expo.goSlice7, h7w]
    constructor
    · intro h7
      have hs : Expo.goSlice7 prev.gitCommitHash = none := by
        simp [Expo.goSlice7]; omega
      cases hp : parse prev.createdAt with
      | none =>
        exact Or.inr ⟨"failed to parse createdAt for update " ++ prev.id, by
          simp [BuildPkg.blocksFor, Expo.FormatBuildVersion, hw, BuildPkg.blocksForTail, hp]⟩
      | some t =>
        exact Or.inl (by
          simp [BuildPkg.blocksFor, Expo.FormatBuildVersion, hw, BuildPkg.blocksForTail, hp, hs])
    · intro h7
      have hs : Expo.goSlice7 prev.gitCommitHash = some (takeStr 7 prev.gitCommitHash) := by
        simp [Expo.goSlice7, h7]
      cases hp : parse prev.createdAt <;>
        simp [BuildPkg.blocksFor, Expo.FormatBuildVersion, hw, BuildPkg.blocksForTail, hp, hs]

/-- C5 witness: the panic clause at a three-byte hash and the panic-free
clause at a ten-byte hash, on concrete inputs. -/
theorem C5_short_commit_hash_witness :
    (("abc" : String).utf8ByteSize < 7
      ∧ (UpdatePkg.blocksFor parse05 0 u5 (some prevShort5) = none ∨
          ∃ e, UpdatePkg.blocksFor parse05 0 u5 (some prevShort5) = some (Except.error e)))
    ∧ (7 ≤ ("0123456789" : String).utf8ByteSize
      ∧ BuildPkg.blocksFor parse05 0 w5 none (some prevLong5) ≠ none) :=
  ⟨⟨by decide, (C5_short_commit_hash.2.1 parse05 0 u5 prevShort5).1 (by decide)⟩,
   ⟨by decide, (C5_short_commit_hash.2.2 parse05 0 w5 prevLong5 (by decide)).2 (by decide)⟩⟩

/-- C6 counterexample: at the duration of one hundred and eighty days less
one nanosecond the code renders six months while truncated integer division
by the thirty-day month yields five: the float64 sum inside Hours rounds up
to a whole number of hours, so the claim that the rendering follows
truncated-division semantics exactly is false at this boundary input. -/
theorem C6_counterexample :
    Dur.formatDuration 15551999999999999 ≠
        toString ((15551999999999999 : Int).tdiv 2592000000000000) ++ " months"
      ∧ Dur.formatDuration 15551999999999999 = "6 months"
      ∧ (15551999999999999 : Int).tdiv 2592000000000000 = 5
      ∧ 2592000000000000 ≤ (15551999999999999 : Int)
      ∧ (15551999999999999 : Int) < 31536000000000000 := by
  refine ⟨by decide, by decide, by decide, by decide, by decide⟩

/-- C6 (amended): formatDuration picks the coarsest unit by the documented
thresholds (seconds under a minute, minutes under an hour, hours under a
day, days under thirty days, months of thirty days under three hundred and
sixty-five days, years of three hundred and sixty-five days beyond) and
prints a whole number obtained by the Go int conversion of a float64
quantity, truncation toward zero; this agrees with truncated integer
division on the documented examples, but not universally: just below a unit
boundary the float64 rounding can step the count up by one, as at one
hundred and eighty days less one nanosecond, rendered as six months where
truncated division yields five. -/
theorem C6_duration_formatting :
    (∀ d : Int, d < 60000000000 →
      ∃ n : Int, Dur.formatDuration d = toString n ++ " seconds")
    ∧ (∀ d : Int, 60000000000 ≤ d → d < 3600000000000 →
      ∃ n : Int, Dur.formatDuration d = toString n ++ " minutes")
    ∧ (∀ d : Int, 3600000000000 ≤ d → d < 86400000000000 →
      ∃ n : Int, Dur.formatDuration d = toString n ++ " hours")
    ∧ (∀ d : Int, 86400000000000 ≤ d → d < 2592000000000000 →
      ∃ n : Int, Dur.formatDuration d = toString n ++ " days")
    ∧ (∀ d : Int, 2592000000000000 ≤ d → d < 31536000000000000 →
      ∃ n : Int, Dur.formatDuration d = toString n ++ " months")
    ∧ (∀ d : Int, 31536000000000000 ≤ d →
      ∃ n : Int, Dur.formatDuration d = toString n ++ " years")
    ∧ Dur.formatDuration 45000000000 = "45 seconds"
    ∧ Dur.formatDuration 90000000000 = "1 minutes"
    ∧ Dur.formatDuration 90000000000000 = "1 days"
    ∧ Dur.formatDuration 34560000000000000 = "1 years"
    ∧ Dur.formatDuration 15551999999999999 = "6 months"
    ∧ (15551999999999999 : Int).tdiv 2592000000000000 = 5 := by
  refine ⟨?_, ?_, ?_, ?_, ?_, ?_,
    by decide, by decide, by decide, by decide, by decide, by decide⟩
  · intro d h
    rw [Dur.formatDuration, if_pos h]
    exact ⟨_, rfl⟩
  · intro d h1 h2
    rw [Dur.formatDuration, if_neg (by omega), if_pos h2]
    exact ⟨_, rfl⟩
  · intro d h1 h2
    rw [Dur.formatDuration, if_neg (by omega), if_neg (by omega), if_pos h2]
    exact ⟨_, rfl⟩
  · intro d h1 h2
    rw [Dur.formatDuration, if_neg (by omega), if_neg (by omega), if_neg (by omega), if_pos h2]
    exact ⟨_, rfl⟩
  · intro d h1 h2
    rw [Dur.formatDuration, if_neg (by omega), if_neg (by omega), if_neg (by omega),
      if_neg (by omega), if_pos h2]
    exact ⟨_, rfl⟩
  · intro d h1
    rw [Dur.formatDuration, if_neg (by omega), if_neg (by omega), if_neg (by omega),
      if_neg (by omega), if_neg (by omega)]
    exact ⟨_, rfl⟩

/-- C6 witness: the seconds clause of the amended theorem applied at the
zero duration. -/
theorem C6_duration_formatting_witness :
    (0 : Int) < 60000000000
      ∧ ∃ n : Int, Dur.formatDuration 0 = toString n ++ " seconds" :=
  ⟨by decide, C6_duration_formatting.1 0 (by decide)⟩

/-- C7: the four display helpers return the documented string on each of
the two known platforms and the three known statuses, the documented
fallback on every other string, and being Lean functions over all strings
they are total by construction. -/
theorem C7_display_helpers_total :
    (Expo.PlatformEmoji ("android") = ":android:"
      ∧ Expo.PlatformEmoji ("ios") = ":apple_logo:"
      ∧ ∀ p : Expo.Platform, p ≠ "android" → p ≠ "ios" →
          Expo.PlatformEmoji p = ":grey_question:")
    ∧ (Expo.PlatformDisplay ("android") = "Android"
      ∧ Expo.PlatformDisplay ("ios") = "iOS"
      ∧ ∀ p : Expo.Platform, p ≠ "android" → p ≠ "ios" →
          Expo.PlatformDisplay p = "Unknown platform ")
    ∧ (Expo.StatusEmoji ("finished") = ":large_green_circle:"
      ∧ Expo.StatusEmoji ("cancelled") = ":large_yellow_circle:"
      ∧ Expo.StatusEmoji ("errored") = ":red_circle:"
      ∧ ∀ s : Expo.Status, s ≠ "finished" → s ≠ "cancelled" → s ≠ "errored" →
          Expo.StatusEmoji s = ":black_circle:")
    ∧ (Expo.StatusDisplay ("finished") = "succeeded"
      ∧ Expo.StatusDisplay ("cancelled") = "cancelled"
      ∧ Expo.StatusDisplay ("errored") = "errored"
      ∧ ∀ s : Expo.Status, s ≠ "finished" → s ≠ "cancelled" → s ≠ "errored" →
          Expo.StatusDisplay s = "in an unknown state") := by
  refine ⟨⟨by decide, by decide, ?_⟩, ⟨by decide, by decide, ?_⟩,
    ⟨by decide, by decide, by decide, ?_⟩, ⟨by decide, by decide, by decide, ?_⟩⟩
  · intro p h1 h2
    simp [Expo.PlatformEmoji, Expo.PlatformAndroid, Expo.PlatformIOS, h1, h2]
  · intro p h1 h2
    simp [Expo.PlatformDisplay, Expo.PlatformAndroid, Expo.PlatformIOS, h1, h2]
  · intro s h1 h2 h3
    simp [Expo.StatusEmoji, Expo.StatusFinished, Expo.StatusCancelled, Expo.StatusErrored,
      h1, h2, h3]
  · intro s h1 h2 h3
    simp [Expo.StatusDisplay, Expo.StatusFinished, Expo.StatusCancelled, Expo.StatusErrored,
      h1, h2, h3]

/-- C7 witness: the fallback clauses applied at a platform and a status
outside the known sets. -/
theorem C7_display_helpers_total_witness :
    ("web" : String) ≠ "android" ∧ ("web" : String) ≠ "ios"
      ∧ Expo.PlatformEmoji ("web") = ":grey_question:"
      ∧ Expo.StatusDisplay ("queued") = "in an unknown state" :=
  ⟨by decide, by decide,
    C7_display_helpers_total.1.2.2 "web" (by decide) (by decide),
    C7_display_helpers_total.2.2.2.2.2.2 "queued" (by decide) (by decide) (by decide)⟩

/-- C9: the update Handle of the source calls handlePayload directly, with
no goroutine, after writing the 200 header; in the model the enrichment
payload is therefore part of the value Handle computes before returning.
On the concrete valid request the handler both answers 200 and performs the
enrichment hand-off within the same synchronous call, which is what
contradicts the claim of a detached task. -/
theorem C9_enrichment_is_synchronous :
    (UpdatePkg.Handle hmac9 ("secret") parse9 req9).1 = 200
      ∧ (UpdatePkg.Handle hmac9 ("secret") parse9 req9).2 = some [u9] := by
  refine ⟨by decide, by decide⟩

/-- C10: with the ALLOW_PREVIEW toggle unset, the update handlePayload
skips every payload entry whose branch starts with xxx entirely — the
external effects of the loop equal those on the payload with that entry
removed, so no upstream lookup and no chat post happen for it while the
surrounding entries are processed exactly as before. -/
theorem C10_preview_branch_skipped (parse : String → Option Int) (now : Int)
    (fu : String → String → Nat → Nat → Except String (List (List Expo.Update)))
    (l₁ l₂ : List UpdatePkg.Update) (u : UpdatePkg.Update)
    (h : strLeads u.branch ("xxx") = true) :
    UpdatePkg.handlePayload parse now fu false (l₁ ++ u :: l₂) =
      UpdatePkg.handlePayload parse now fu false (l₁ ++ l₂) := by
  induction l₁ with
  | nil => simp [UpdatePkg.handlePayload, h]
  | cons a t ih =>
    cases hb : strLeads a.branch ("xxx") with
    | true =>
      simp only [List.cons_append, UpdatePkg.handlePayload, hb, Bool.not_false,
        Bool.true_and, if_true]
      exact ih
    | false =>
      simp only [List.cons_append, UpdatePkg.handlePayload, hb, Bool.not_false,
        Bool.true_and, Bool.false_eq_true, if_false]
      cases hbl : UpdatePkg.blocksFor parse now a
          (match UpdatePkg.fetchPreviousUpdate parse fu a with
            | Except.ok p => p
            | Except.error _ => none) with
      | none => rfl
      | some res =>
        cases res with
        | error e => rfl
        | ok blocks => simp only [List.append_eq, ih]

/-- C10 witness: a concrete preview-branch entry vanishes from the
effects. -/
theorem C10_preview_branch_skipped_witness :
    strLeads u10.branch ("xxx") = true
      ∧ UpdatePkg.handlePayload parse10 0 fu10 false [u10] =
          UpdatePkg.handlePayload parse10 0 fu10 false [] :=
  ⟨by decide, C10_preview_branch_skipped parse10 0 fu10 [] [] u10 (by decide)⟩

end Webhook
